import Mathlib

/-!
Verification development for the x4shipqueue hull/equipment extraction tool.

The Python sources are shallowly embedded: Python `set[str]` becomes
`Finset String`, Python `dict` becomes an insertion-ordered association
list (`List (key × value)`) with Python-dict update semantics, optional
values become `Option`, and each embedded definition keeps the source's
name where Lean allows it.  The repository holds two snapshots of the
matcher; definitions below note which file they come from.
-/

namespace X4SQ

/-! ### Python string primitives

Lean's own `String.toLower`, `String.splitOn`, … are byte-position loops
that the kernel cannot evaluate, so the Python string operations the tool
uses are embedded as structural recursions over the character list of the
string.  All identifiers the tool handles are ASCII, where these agree
with Python's semantics. -/

/-- Python `str.lower` (ASCII). -/
def strLower (s : String) : String :=
  String.mk (s.data.map Char.toLower)

/-- Python `str.upper` (ASCII). -/
def strUpper (s : String) : String :=
  String.mk (s.data.map Char.toUpper)

/-- Split a character list at every occurrence of `sep`, keeping empty
chunks, as Python `str.split(sep)` does. -/
def splitOnChar (sep : Char) : List Char → List (List Char)
  | [] => [[]]
  | c :: rest =>
    match splitOnChar sep rest with
    | [] => [[]]
    | chunk :: more =>
      if c = sep then [] :: chunk :: more else (c :: chunk) :: more

/-- Python `s.split(sep)` for a one-character separator. -/
def pySplit (s : String) (sep : Char) : List String :=
  (splitOnChar sep s.data).map String.mk

/-- Fuel-driven worker for `replaceAll`: each step consumes at least one
character, so `cs.length` fuel always suffices.  (Structural recursion on
the fuel keeps the definition kernel-evaluable.) -/
def replaceAllFuel (pat repl : List Char) : Nat → List Char → List Char
  | 0, cs => cs
  | Nat.succ fuel, cs =>
    match cs with
    | [] => []
    | c :: rest =>
      if pat ≠ [] ∧ pat.isPrefixOf (c :: rest) then
        repl ++ replaceAllFuel pat repl fuel (rest.drop (pat.length - 1))
      else
        c :: replaceAllFuel pat repl fuel rest

/-- Replace every (left-to-right, non-overlapping) occurrence of `pat` by
`repl`, as Python `str.replace` does for a non-empty pattern. -/
def replaceAll (pat repl cs : List Char) : List Char :=
  replaceAllFuel pat repl cs.length cs

/-- Python `s.replace(pat, repl)`. -/
def strReplace (s pat repl : String) : String :=
  String.mk (replaceAll pat.data repl.data s.data)

/-- The whitespace stripped by Python `str.strip()`. -/
def isSpaceChar (c : Char) : Bool :=
  decide (c = ' ' ∨ c = '\t' ∨ c = '\n' ∨ c = '\r' ∨ c = '\x0b' ∨ c = '\x0c')

/-- Python `str.strip()`. -/
def pyStrip (s : String) : String :=
  String.mk (((s.data.dropWhile isSpaceChar).reverse.dropWhile isSpaceChar).reverse)

/-- Python `s.startswith(pat)`. -/
def strStartsWith (s pat : String) : Bool :=
  pat.data.isPrefixOf s.data

/-- Python `s.endswith(pat)`. -/
def strEndsWith (s pat : String) : Bool :=
  pat.data.reverse.isPrefixOf s.data.reverse

/-- Python `s[n:]` for a non-negative index. -/
def strDrop (s : String) (n : Nat) : String :=
  String.mk (s.data.drop n)

/-- Drop the last `n` characters (`s[:-n]` for a non-negative index). -/
def strDropRight (s : String) (n : Nat) : String :=
  String.mk (s.data.take (s.data.length - n))

/-- Python `str.isdigit` restricted to the ASCII identifiers the tool
handles: non-empty and every character a digit. -/
def isPyDigit (s : String) : Bool :=
  decide (s.data ≠ []) && s.data.all Char.isDigit

/-- Python `pat in s` substring containment. -/
def strContains (s pat : String) : Bool :=
  decide (List.IsInfix pat.data s.data)

/-- Python dict lookup `d.get(k)` on an insertion-ordered association
list: the value of the first (and, for a list built with `dictSet`, only)
entry with the key. -/
def dictGet? {α : Type} : List (String × α) → String → Option α
  | [], _ => none
  | p :: d, k => if p.1 == k then some p.2 else dictGet? d k

/-- Python dict assignment `d[k] = v`: replace in place when the key is
present, append otherwise. -/
def dictSet {α : Type} (d : List (String × α)) (k : String) (v : α) :
    List (String × α) :=
  if d.any (fun p => p.1 == k) then
    d.map (fun p => if p.1 == k then (k, v) else p)
  else
    d ++ [(k, v)]

/-! ### Identifier tokenisation (src/hulls/extract_hulls.py, x4shipqueue/hulls/macros.py) -/

/-- `tokenise_identifier` from src/hulls/extract_hulls.py: lowercase, split
on underscores, drop empty segments.  (It does not drop digits or the
ship/macro stopwords.) -/
def tokenise_identifier (value : String) : Finset String :=
  ((pySplit (strLower value) '_').filter (fun t => decide (t ≠ ""))).toFinset

/-- `macro_tokens` from x4shipqueue/hulls/macros.py: lowercase, split on
underscores, drop pure-digit segments and the literal segments
"ship"/"macro". -/
def macro_tokens (macro_id : String) : Finset String :=
  ((pySplit (strLower macro_id) '_').filter
    (fun p => decide (isPyDigit p = false ∧ p ≠ "ship" ∧ p ≠ "macro"))).toFinset

/-- `_normalise_ship_tokens` from src/hulls/extract_hulls.py: make the
trader/trans role tokens mutually visible. -/
def normalise_ship_tokens (tokens : Finset String) : Finset String :=
  let out1 := if "trans" ∈ tokens then insert "trader" tokens else tokens
  if "trader" ∈ out1 then insert "trans" out1 else out1

/-! ### Faction vocabulary (src/config.py) -/

/-- `FACTION_ALIASES` from src/config.py (insertion order kept). -/
def FACTION_ALIASES : List (String × String) :=
  [("argon", "ARG"), ("antigone", "ARG"), ("hatikvah", "ARG"),
   ("boron", "BOR"),
   ("paranid", "PAR"), ("holyorder", "PAR"), ("tri", "PAR"),
   ("teladi", "TEL"), ("ministry", "TEL"),
   ("split", "SPL"), ("zya", "SPL"), ("frf", "SPL"), ("court", "SPL"),
   ("fallensplit", "SPL"),
   ("terran", "TER"), ("pioneer", "TER"), ("atf", "TER"),
   ("loanshark", "LOA"), ("vigor", "LOA"), ("riptide", "LOA"),
   ("yaki", "YAK"), ("xenon", "XEN")]

/-- The 3-letter prefix map local to `token_to_faction_code` in src/config.py. -/
def prefixFactionMap : List (String × String) :=
  [("arg", "ARG"), ("ant", "ARG"), ("hat", "ARG"),
   ("bor", "BOR"),
   ("par", "PAR"), ("tri", "PAR"), ("hol", "PAR"),
   ("tel", "TEL"), ("min", "TEL"),
   ("spl", "SPL"), ("zya", "SPL"), ("frf", "SPL"),
   ("ter", "TER"), ("pio", "TER"), ("atf", "TER"),
   ("vig", "LOA"), ("rip", "LOA"), ("loa", "LOA"),
   ("yak", "YAK"), ("xen", "XEN")]

/-- `token_to_faction_code` from src/config.py: aliases first, then the
3-letter prefix map, `none` when unknown. -/
def token_to_faction_code (token : String) : Option String :=
  let t := strLower token
  match dictGet? FACTION_ALIASES t with
  | some c => some c
  | none => dictGet? prefixFactionMap t

/-- `_faction_codes_from_tokens` from src/hulls/matching.py. -/
def faction_codes_from_tokens (tokens : Finset String) : Finset String :=
  tokens.biUnion (fun t =>
    match token_to_faction_code t with
    | some c => {c}
    | none => ∅)

/-! ### The gate-based matcher (src/hulls/matching.py) -/

/-- The noise set removed from both cores in `ship_to_macro_match`. -/
def coreNoiseTokens : Finset String := {"s", "m", "l", "xl", "ship", "macro"}

/-- The ship-side core set of `ship_to_macro_match`: underscore segments of
`ship_id` after the first, minus noise and digits, with the trader→trans
pairing. -/
def shipCoreTokens (ship_id : String) : Finset String :=
  let core0 := ((pySplit (strLower ship_id) '_').drop 1).toFinset \ coreNoiseTokens
  let core1 := core0.filter (fun t => isPyDigit t = false)
  if "trader" ∈ core1 then insert "trans" core1 else core1

/-- The macro-side core set of `ship_to_macro_match`: `macro_id` with every
"_macro" occurrence removed, segments after the first, minus noise and
digits, with the trans→trader pairing. -/
def macroCoreTokens (macro_id : String) : Finset String :=
  let stripped := strReplace (strLower macro_id) "_macro" ""
  let core0 := ((pySplit stripped '_').drop 1).toFinset \ coreNoiseTokens
  let core1 := core0.filter (fun t => isPyDigit t = false)
  if "trans" ∈ core1 then insert "trader" core1 else core1

/-- Gate 2 of `ship_to_macro_match`: reject only when both sides carry
recognised faction codes and the code sets are disjoint. -/
def factionGatePasses (ship_tokens macro_tokens : Finset String) : Bool :=
  if (faction_codes_from_tokens ship_tokens).Nonempty ∧
      (faction_codes_from_tokens macro_tokens).Nonempty ∧
      faction_codes_from_tokens ship_tokens ∩
        faction_codes_from_tokens macro_tokens = ∅ then
    false
  else true

/-- The matcher match_ship_to_macro from src/hulls/matching.py (renamed
here): size gate, faction gate, then the id-derived core subset gate.  (The `MATCH_STATS` counters are
debug instrumentation and carry no result.) -/
def ship_to_macro_match (ship_id : String) (ship_tokens : Finset String)
    (ship_size : String) (macro_id : String) (macro_tokens : Finset String) :
    Bool :=
  if strLower ship_size ∈ macro_tokens then
    if factionGatePasses ship_tokens macro_tokens then
      decide (shipCoreTokens ship_id ⊆ macroCoreTokens macro_id)
    else false
  else false

/-- `find_matching_macro_id` from src/hulls/matching.py: first macro of the
map (in insertion order) accepted by the matcher. -/
def find_matching_macro_id (ship_id : String) (ship_tokens : Finset String)
    (ship_size : String) (macroTokenMap : List (String × Finset String)) :
    Option String :=
  (macroTokenMap.find? (fun p =>
    ship_to_macro_match ship_id ship_tokens ship_size p.1 p.2)).map
    (fun p => p.1)

/-! ### Record shapes (src/models.py) and the assembler (src/hulls/extract_hulls.py)

The XML extractors and file-system walks are external collaborators; the
assembler is embedded as a function of the collections they supply: the
archetype list (`archetypes.values()` in insertion order), the
macro-id-keyed production map (prod_by_macro in the source), the
ware-id → raw-name map, and the list of
macro file stems from which `extract_hulls` builds its token map. -/

/-- `Production` from src/models.py.  `build_time` is a float in the
source; it is only copied, never computed with, so it is carried as `Rat`. -/
structure Production where
  ware_id : String
  macro_id : Option String
  transport : String
  price_min : Option Int
  price_avg : Option Int
  price_max : Option Int
  build_time : Rat
  components : List (String × Int)
deriving DecidableEq

/-- `ShipArchetype` from src/models.py (the fields `extract_hulls` reads). -/
structure ShipArchetype where
  source : String
  ship_id : String
  faction : String
  race : String
  size : String
  role : String
  group : Option String
deriving DecidableEq

/-- `HullRow` from src/models.py. -/
structure HullRow where
  source : String
  hull_id : String
  macro_id : String
  hull_name : String
  faction : String
  race : String
  size : String
  role : String
  variant : String
  crew : Option Int
  hull_hp : Option Int
  engine_slots : Option Int
  shield_slots : Option Int
  weapon_slots : Option Int
  turret_m : Option Int
  turret_l : Option Int
  production : Production
deriving DecidableEq

/-- `_is_physical_ship_size` from src/hulls/extract_hulls.py. -/
def is_physical_ship_size (tokens : Finset String) : Bool :=
  decide ((tokens ∩ ({"s", "m", "l", "xl"} : Finset String)).Nonempty)

/-- The `non_buildable_markers` set local to `_looks_non_buildable` in
src/hulls/extract_hulls.py. -/
def nonBuildableMarkers : Finset String :=
  {"masstraffic", "spacesuit", "board", "boardingpod",
   "fightingdrone", "miningdrone", "cargodrone", "repairdrone",
   "lasertower", "distressbeacon", "escapepod", "damagebody",
   "part", "struct", "storage", "hab", "prod",
   "story", "plot", "scenario"}

/-- `_looks_non_buildable` from src/hulls/extract_hulls.py. -/
def looks_non_buildable (tokens : Finset String) : Bool :=
  decide ((tokens ∩ nonBuildableMarkers).Nonempty)

/-- The race-token injection loop of `extract_hulls`: add every
`FACTION_ALIASES` key whose code equals the archetype race, uppercased. -/
def injectRaceTokens (tokens : Finset String) (race : String) : Finset String :=
  FACTION_ALIASES.foldl
    (fun acc p => if p.2 == strUpper race then insert p.1 acc else acc) tokens

/-- The variant derivation of `extract_hulls`: the first of "a".."d"
occurring as an underscore-delimited segment of the macro id, uppercased. -/
def deriveVariant (macro_id : String) : String :=
  let padded := "_" ++ macro_id ++ "_"
  if strContains padded "_a_" then "A"
  else if strContains padded "_b_" then "B"
  else if strContains padded "_c_" then "C"
  else if strContains padded "_d_" then "D"
  else ""

/-- The macro-token index `extract_hulls` builds once: each file stem keyed
to `_normalise_ship_tokens(macro_tokens(stem))`, in file order, with
Python-dict overwrite semantics on a repeated stem. -/
def buildMacroTokenMap (macroIds : List String) : List (String × Finset String) :=
  macroIds.foldl
    (fun acc mid => dictSet acc mid (normalise_ship_tokens (macro_tokens mid))) []

/-- The gate chain of the `extract_hulls` loop body for one archetype:
tokenise the group (or the ship id), normalise, apply the buildability
filters, inject race tokens, find the first matching macro, and require a
ship-transport production record; yields the matched macro id and its
production record when every step succeeds. -/
def hullMatchResult (macroTokenMap : List (String × Finset String))
    (prod_map : List (String × Production)) (arch : ShipArchetype) :
    Option (String × Production) :=
  let ship_id := arch.ship_id
  let ship_group := arch.group.getD ""
  let stoks0 := tokenise_identifier (if ship_group == "" then ship_id else ship_group)
  let stoks1 := normalise_ship_tokens stoks0
  match is_physical_ship_size stoks1 with
  | false => none
  | true =>
  match looks_non_buildable stoks1 with
  | true => none
  | false =>
    let stoks := if arch.race == "" then stoks1 else injectRaceTokens stoks1 arch.race
    match find_matching_macro_id ship_id stoks arch.size macroTokenMap with
    | none => none
    | some macro_id =>
      match dictGet? prod_map macro_id with
      | none => none
      | some prod =>
        match prod.transport == "ship" with
        | false => none
        | true => some (macro_id, prod)

/-- The row the `extract_hulls` loop appends for a matched archetype. -/
def assembleHullRow (name_by_ware : List (String × String))
    (arch : ShipArchetype) (mp : String × Production) : HullRow :=
  let macro_id := mp.1
  let prod := mp.2
  let variant := deriveVariant macro_id
  let hull_name_code := (dictGet? name_by_ware prod.ware_id).getD ""
  { source := arch.source
    hull_id := arch.ship_id
    macro_id := macro_id
    hull_name := if hull_name_code == "" then "Unknown Ship" else hull_name_code
    faction := strUpper (if arch.faction == "" then arch.race else arch.faction)
    race := strUpper arch.race
    size := arch.size
    role := if arch.role == "" then "Unknown" else arch.role
    variant := variant
    crew := some 0
    hull_hp := some 0
    engine_slots := some 0
    shield_slots := some 0
    weapon_slots := some 0
    turret_m := some 0
    turret_l := some 0
    production := prod }

/-- The per-archetype body of the `extract_hulls` loop. -/
def hullRowFor (macroTokenMap : List (String × Finset String))
    (prod_map : List (String × Production))
    (name_by_ware : List (String × String)) (arch : ShipArchetype) :
    Option HullRow :=
  (hullMatchResult macroTokenMap prod_map arch).map
    (assembleHullRow name_by_ware arch)

/-- `extract_hulls` from src/hulls/extract_hulls.py over the extracted
collections. -/
def extract_hulls (archetypes : List ShipArchetype)
    (prod_map : List (String × Production))
    (name_by_ware : List (String × String)) (macroIds : List String) :
    List HullRow :=
  archetypes.filterMap
    (hullRowFor (buildMacroTokenMap macroIds) prod_map name_by_ware)

/-! ### The score-based matcher variant (src/x4shipqueue/hulls/matching.py,
src/x4shipqueue/config.py) -/

/-- `FACTION_TOKENS` from src/x4shipqueue/config.py. -/
def FACTION_TOKENS : Finset String :=
  {"arg", "ant", "par", "hol", "tri",
   "tel", "min", "bor", "spl",
   "ter", "pio", "xen", "buc",
   "hat", "sca", "kha", "yak"}

/-- `GENERIC_CLASS_TOKENS` from src/x4shipqueue/config.py. -/
def GENERIC_CLASS_TOKENS : Finset String :=
  {"fighter", "scout", "trader", "miner", "carrier", "destroyer",
   "frigate", "corvette", "gunboat", "resupplier", "builder"}

/-- `MIN_MATCH_SCORE` from src/x4shipqueue/hulls/matching.py. -/
def MIN_MATCH_SCORE : Nat := 3

/-- `score_macro_match` from src/x4shipqueue/hulls/matching.py: zero on a
recognised-faction conflict or when the intersection minus the generic
class vocabulary is empty, otherwise the size of the raw intersection,
together with the missing/extra token sets. -/
def score_macro_match (ship_tokens macro_tokens : Finset String) :
    Nat × Finset String × Finset String :=
  let sf := ship_tokens ∩ FACTION_TOKENS
  let mf := macro_tokens ∩ FACTION_TOKENS
  if sf.Nonempty ∧ mf.Nonempty ∧ sf ∩ mf = ∅ then (0, ∅, ∅)
  else
    let matched := ship_tokens ∩ macro_tokens
    let meaningful := matched \ GENERIC_CLASS_TOKENS
    if meaningful = ∅ then (0, ∅, ∅)
    else (matched.card, ship_tokens \ macro_tokens, macro_tokens \ ship_tokens)

/-- The acceptance test applied to each scored pair by `extract_hulls` in
src/x4shipqueue/hulls/extract.py: `score >= MIN_MATCH_SCORE`. -/
def macroAccepted (ship_tokens macro_tokens : Finset String) : Bool :=
  decide (MIN_MATCH_SCORE ≤ (score_macro_match ship_tokens macro_tokens).1)

/-! ### Component summing (src/export/excel.py) -/

/-- `components_to_map` from src/export/excel.py: fold the component list
into a Python dict, adding each amount onto the amount already recorded
for its material (`result[name] = result.get(name, 0) + qty`). -/
def components_to_map (components : List (String × Int)) : List (String × Int) :=
  components.foldl
    (fun result p => dictSet result p.1 ((dictGet? result p.1).getD 0 + p.2)) []

/-! ### Display-name resolution (src/util/naming.py) -/

/-- Python `html.unescape` restricted to the standard XML entities, the
only ones the game's name strings use. -/
def htmlUnescape (s : String) : String :=
  strReplace (strReplace (strReplace (strReplace s "&lt;" "<") "&gt;" ">")
    "&quot;" "\"") "&amp;" "&"

/-- Python `text.split("\x7b", 1)[0]`: the part before the first opening
brace. -/
def takeBeforeBrace (s : String) : String :=
  (pySplit s '\x7b').headD ""

/-- `clean_x4_display_name` from src/util/naming.py: unescape entities,
unescape backslash-escaped parentheses, cut a trailing text reference,
strip one layer of surrounding parentheses. -/
def clean_x4_display_name (text : String) : String :=
  if text == "" then ""
  else
    let t1 := htmlUnescape text
    let t2 := strReplace (strReplace t1 "\\(" "(") "\\)" ")"
    let t3 := pyStrip (takeBeforeBrace t2)
    if strStartsWith t3 "(" && strEndsWith t3 ")" then
      pyStrip (strDropRight (strDrop t3 1) 1)
    else t3

/-- Python `int(s)` on the decimal strings the text references carry:
surrounding whitespace and one optional sign, then digits. -/
def pyInt (s : String) : Option Int :=
  let t := pyStrip s
  let digitsToNat : List Char → Option Nat := fun cs =>
    if cs ≠ [] ∧ cs.all Char.isDigit then
      some (cs.foldl (fun acc c => acc * 10 + (c.toNat - 48)) 0)
    else none
  if strStartsWith t "-" then
    (digitsToNat (t.data.drop 1)).map (fun n => -(n : Int))
  else if strStartsWith t "+" then
    (digitsToNat (t.data.drop 1)).map (fun n => (n : Int))
  else
    (digitsToNat t.data).map (fun n => (n : Int))

/-- Python `s.split(",", 1)`: split at the first comma only. -/
def splitOnceComma (s : String) : Option (String × String) :=
  match splitOnChar ',' s.data with
  | [] => none
  | [_] => none
  | a :: rest =>
    some (String.mk a, String.intercalate "," (rest.map String.mk))

/-- `parse_text_ref` from src/util/naming.py: accept
`\x7b<int>,<int>\x7d` (after stripping), `none` otherwise. -/
def parse_text_ref (raw : Option String) : Option (Int × Int) :=
  match raw with
  | none => none
  | some r =>
    if r == "" then none
    else
      let s := pyStrip r
      if strStartsWith s "\x7b" && strEndsWith s "\x7d" then
        let inner := strDropRight (strDrop s 1) 1
        match splitOnceComma inner with
        | none => none
        | some (a, b) =>
          match pyInt a, pyInt b with
          | some p, some i => some (p, i)
          | _, _ => none
      else none

/-- Translation-table lookup `ref in ttable` / `ttable[ref]`. -/
def ttLookup (ttable : List ((Int × Int) × String)) (ref : Int × Int) :
    Option String :=
  (ttable.find? (fun p => decide (p.1 = ref))).map (fun p => p.2)

/-- `resolve_display_name` from src/util/naming.py: table hit first, then a
cleaned non-reference literal, then the fallback. -/
def resolve_display_name (raw : Option String)
    (ttable : List ((Int × Int) × String)) (fallback : String) : String :=
  let hit : Option String :=
    match parse_text_ref raw with
    | some ref => ttLookup ttable ref
    | none => none
  match hit with
  | some s => s
  | none =>
    match raw with
    | none => fallback
    | some r =>
      if r == "" then fallback
      else if strStartsWith (pyStrip r) "\x7b" then fallback
      else clean_x4_display_name r

/-! ### Equipment id canonicalisation (src/equipment/parse.py, src/config.py)

`ID_VARIANT_RE = re.compile(r"_(\d\x7b2\x7d)_(mk\d+)$", re.IGNORECASE)` and
`canonical_equipment_id = ID_VARIANT_RE.sub(r"_\2", ware_id)`.  Anchored at
the end of the string, the pattern has at most one match: the id must end
in underscore, exactly two digits, underscore, `mk`/`MK`… and one or more
digits running to the end.  The substitution keeps the matched mark text
and drops the two-digit segment. -/

/-- The single possible match of `ID_VARIANT_RE`, computed on the reversed
character list: `some result` when the pattern applies, `none` otherwise. -/
def variantStrip (ware_id : String) : Option String :=
  let rev := ware_id.data.reverse
  let ds := rev.takeWhile Char.isDigit
  let rest := rev.dropWhile Char.isDigit
  match ds, rest with
  | [], _ => none
  | _, k :: m :: u1 :: d2 :: d1 :: u2 :: rest2 =>
    if (k = 'k' ∨ k = 'K') ∧ (m = 'm' ∨ m = 'M') ∧ u1 = '_' ∧
        d2.isDigit ∧ d1.isDigit ∧ u2 = '_' then
      some (String.mk (rest2.reverse ++ '_' :: m :: k :: ds.reverse))
    else none
  | _, _ => none

/-- `canonical_equipment_id` from src/equipment/parse.py. -/
def canonical_equipment_id (ware_id : String) : String :=
  (variantStrip ware_id).getD ware_id

/-! ### Concrete inputs shared by the theorems below -/

/-- The archetype of the spec's end-to-end scenario: size M, faction ARG,
role Miner. -/
def archMiner01 : ShipArchetype :=
  { source := "base", ship_id := "ship_arg_m_miner_01", faction := "ARG",
    race := "ARG", size := "M", role := "Miner", group := none }

/-- A second ARG M miner archetype whose core tokens also match the first
scenario macro. -/
def archMiner02 : ShipArchetype :=
  { archMiner01 with ship_id := "ship_arg_m_miner_02" }

/-- A ship-transport production record for the first scenario macro. -/
def prodMinerA : Production :=
  { ware_id := "ship_arg_m_miner_01_a", macro_id := some "ship_arg_m_miner_01_a_macro",
    transport := "ship", price_min := some 90, price_avg := some 100,
    price_max := some 110, build_time := 10,
    components := [("hullparts", 10), ("energycells", 5)] }

/-- A ship-transport production record for the second scenario macro. -/
def prodMinerB : Production :=
  { prodMinerA with
    ware_id := "ship_arg_m_miner_01_b",
    macro_id := some "ship_arg_m_miner_01_b_macro" }

/-- The macro-keyed production map of the scenario. -/
def minerProdMap : List (String × Production) :=
  [("ship_arg_m_miner_01_a_macro", prodMinerA),
   ("ship_arg_m_miner_01_b_macro", prodMinerB)]

/-- The two candidate macro file stems of the scenario. -/
def minerMacroIds : List String :=
  ["ship_arg_m_miner_01_a_macro", "ship_arg_m_miner_01_b_macro"]

/-- The token set `extract_hulls` computes for `archMiner01` before
matching: tokenised, normalised, race tokens injected. -/
def minerShipTokens : Finset String :=
  injectRaceTokens (normalise_ship_tokens (tokenise_identifier "ship_arg_m_miner_01")) "ARG"

/-! ### Claim-worded constructions kept for comparison with the code -/

/-- Claim C3's wording of the archetype core set: A's token set with size
tokens, the words "ship"/"macro" and numeric tokens removed, then the
trader→trans pairing.  (The code instead derives the core from `ship_id`,
dropping its first underscore segment.) -/
def claimedShipCoreC3 (tokens : Finset String) : Finset String :=
  let base := (tokens \ coreNoiseTokens).filter (fun t => isPyDigit t = false)
  if "trader" ∈ base then insert "trans" base else base

/-- Claim C3's wording of the macro core set: M's token set with the same
removals. -/
def claimedMacroCoreC3 (tokens : Finset String) : Finset String :=
  (tokens \ coreNoiseTokens).filter (fun t => isPyDigit t = false)

/-- Claim C7's wording of the tokenizer: underscore segments, lowercased,
empty segments dropped, pure-digit segments and the stopwords
"ship"/"macro" removed.  (The code's `tokenise_identifier` keeps digits
and stopwords.) -/
def claimedTokeniserC7 (value : String) : Finset String :=
  ((pySplit (strLower value) '_').filter
    (fun t => decide (t ≠ "" ∧ isPyDigit t = false ∧ t ≠ "ship" ∧ t ≠ "macro"))).toFinset

/-! ## Theorems -/

/-- C4: whenever `ship_to_macro_match` returns true, the archetype's size
class, lowercased, is a member of the macro's token set; and a pair whose
lowercased size class is not in the macro's token set is rejected. -/
theorem C4_size_gate :
    (∀ (sid : String) (stoks : Finset String) (ssize mid : String)
        (mtoks : Finset String),
      ship_to_macro_match sid stoks ssize mid mtoks = true →
        strLower ssize ∈ mtoks) ∧
    (∀ (sid : String) (stoks : Finset String) (ssize mid : String)
        (mtoks : Finset String),
      strLower ssize ∉ mtoks →
        ship_to_macro_match sid stoks ssize mid mtoks = false) := by
  constructor
  · intro sid stoks ssize mid mtoks h
    by_contra hm
    rw [ship_to_macro_match, if_neg hm] at h
    exact Bool.noConfusion h
  · intro sid stoks ssize mid mtoks hm
    rw [ship_to_macro_match, if_neg hm]

/-- C4 witness: the size gate conclusion at a concretely accepted pair of
the miner scenario. -/
theorem C4_size_gate_witness :
    strLower "M" ∈ normalise_ship_tokens (macro_tokens "ship_arg_m_miner_01_a_macro") :=
  C4_size_gate.1 "ship_arg_m_miner_01" minerShipTokens "M"
    "ship_arg_m_miner_01_a_macro"
    (normalise_ship_tokens (macro_tokens "ship_arg_m_miner_01_a_macro"))
    (by decide)

/-- C5: after the size gate, a pair whose two sides both carry recognised
faction codes with disjoint code sets is rejected; a side with no
recognised faction code lets the faction gate pass; and the concrete
archetype tokens arg/destroyer/l against macro tokens tel/destroyer/l
(size l) are rejected whatever the identifiers are. -/
theorem C5_faction_gate :
    (∀ (sid : String) (stoks : Finset String) (ssize mid : String)
        (mtoks : Finset String),
      strLower ssize ∈ mtoks →
      (faction_codes_from_tokens stoks).Nonempty →
      (faction_codes_from_tokens mtoks).Nonempty →
      faction_codes_from_tokens stoks ∩ faction_codes_from_tokens mtoks = ∅ →
        ship_to_macro_match sid stoks ssize mid mtoks = false) ∧
    (∀ stoks mtoks : Finset String,
      faction_codes_from_tokens stoks = ∅ ∨ faction_codes_from_tokens mtoks = ∅ →
        factionGatePasses stoks mtoks = true) ∧
    (∀ sid mid : String,
      ship_to_macro_match sid {"arg", "destroyer", "l"} "l" mid
        {"tel", "destroyer", "l"} = false) := by
  refine ⟨?_, ?_, ?_⟩
  · intro sid stoks ssize mid mtoks hsz h1 h2 h3
    have hg : factionGatePasses stoks mtoks = false := by
      rw [factionGatePasses, if_pos ⟨h1, h2, h3⟩]
    rw [ship_to_macro_match, if_pos hsz]
    simp [hg]
  · intro stoks mtoks h
    rw [factionGatePasses, if_neg]
    rintro ⟨h1, h2, _⟩
    rcases h with h | h
    · rw [h] at h1
      exact Finset.not_nonempty_empty h1
    · rw [h] at h2
      exact Finset.not_nonempty_empty h2
  · intro sid mid
    have hsz : strLower "l" ∈ ({"tel", "destroyer", "l"} : Finset String) := by
      decide
    have hg : factionGatePasses {"arg", "destroyer", "l"}
        {"tel", "destroyer", "l"} = false := by decide
    rw [ship_to_macro_match, if_pos hsz]
    simp [hg]

/-- C5 witness: the disjoint-faction rejection at a concrete pair with
codes ARG versus TEL. -/
theorem C5_faction_gate_witness :
    ship_to_macro_match "x" {"arg"} "l" "y" {"tel", "l"} = false :=
  C5_faction_gate.1 "x" {"arg"} "l" "y" {"tel", "l"}
    (by decide) (by decide) (by decide) (by decide)

/-- C3 counterexample: a pair the matcher accepts although the claim's
core set of the supplied archetype tokens (zeta/arg/m) is not contained in
the claim's core set of the macro tokens — the third gate reads the
identifiers, not the token sets. -/
theorem C3_counterexample :
    ship_to_macro_match "ship_arg_m_01" {"zeta", "arg", "m"} "m"
      "ship_arg_m_foo_macro" {"arg", "m", "foo"} = true ∧
    ¬ (claimedShipCoreC3 {"zeta", "arg", "m"} ⊆
        claimedMacroCoreC3 {"arg", "m", "foo"}) :=
  ⟨by decide, by decide⟩

/-- C3 amended: acceptance at the third gate requires the identifier-derived
core of the archetype (segments of ship_id after the first, minus
size/ship/macro noise and digits, trader→trans paired) to be a subset of
the macro's identifier-derived core; the supplied token sets are not
consulted there, and the converse containment is not required, as the
accepted miner pair with the macro-only decoration token "a" shows. -/
theorem C3_core_gate_amended :
    (∀ (sid : String) (stoks : Finset String) (ssize mid : String)
        (mtoks : Finset String),
      ship_to_macro_match sid stoks ssize mid mtoks = true →
        shipCoreTokens sid ⊆ macroCoreTokens mid) ∧
    (ship_to_macro_match "ship_arg_m_miner_01" minerShipTokens "M"
        "ship_arg_m_miner_01_a_macro"
        (normalise_ship_tokens (macro_tokens "ship_arg_m_miner_01_a_macro")) = true ∧
      ¬ (macroCoreTokens "ship_arg_m_miner_01_a_macro" ⊆
          shipCoreTokens "ship_arg_m_miner_01")) := by
  constructor
  · intro sid stoks ssize mid mtoks h
    rw [ship_to_macro_match] at h
    split at h
    · split at h
      · exact of_decide_eq_true h
      · exact Bool.noConfusion h
    · exact Bool.noConfusion h
  · exact ⟨by decide, by decide⟩

/-- C3 witness: the amended subset conclusion at the concretely accepted
miner pair. -/
theorem C3_core_gate_witness :
    shipCoreTokens "ship_arg_m_miner_01" ⊆
      macroCoreTokens "ship_arg_m_miner_01_a_macro" :=
  C3_core_gate_amended.1 "ship_arg_m_miner_01" minerShipTokens "M"
    "ship_arg_m_miner_01_a_macro"
    (normalise_ship_tokens (macro_tokens "ship_arg_m_miner_01_a_macro"))
    (by decide)

/-- Mapping a projection over a `filterMap` yields a sublist of mapping the
matching projection over the original list, when the two projections agree
on every produced element. -/
theorem map_filterMap_sublist {α β γ : Type} (f : α → Option β) (g : β → γ)
    (h : α → γ) (hfg : ∀ a b, f a = some b → g b = h a) (l : List α) :
    ((l.filterMap f).map g).Sublist (l.map h) := by
  induction l with
  | nil => simp
  | cons a l ih =>
    cases hf : f a with
    | none =>
      rw [List.filterMap_cons_none hf, List.map_cons]
      exact ih.cons (h a)
    | some b =>
      rw [List.filterMap_cons_some hf, List.map_cons, List.map_cons,
        hfg a b hf]
      exact ih.cons₂ (h a)

/-- Every row `hullRowFor` produces carries the archetype's ship id as its
hull id. -/
theorem hullRowFor_hull_id (M : List (String × Finset String))
    (pm : List (String × Production)) (nm : List (String × String))
    (arch : ShipArchetype) (row : HullRow)
    (h : hullRowFor M pm nm arch = some row) : row.hull_id = arch.ship_id := by
  rw [hullRowFor] at h
  rcases Option.map_eq_some'.mp h with ⟨mp, _, rfl⟩
  rfl

/-- C1 counterexample: two archetypes both matching the single scenario
macro give `extract_hulls` two hull rows with the same macro id — the
cited assembler has no per-macro first-claim rule. -/
theorem C1_counterexample :
    (extract_hulls [archMiner01, archMiner02] minerProdMap []
        ["ship_arg_m_miner_01_a_macro"]).map (fun r => r.macro_id) =
      ["ship_arg_m_miner_01_a_macro", "ship_arg_m_miner_01_a_macro"] ∧
    ¬ ((extract_hulls [archMiner01, archMiner02] minerProdMap []
        ["ship_arg_m_miner_01_a_macro"]).map (fun r => r.macro_id)).Nodup :=
  ⟨by decide, by decide⟩

/-- C1 amended: the uniqueness `extract_hulls` does enforce is per
archetype, not per macro — with pairwise-distinct archetype ship ids the
hull ids of the returned rows are pairwise distinct (each archetype
contributes at most one row, its first matching macro). -/
theorem C1_uniqueness_amended :
    ∀ (archetypes : List ShipArchetype) (pm : List (String × Production))
      (nm : List (String × String)) (mi : List String),
      (archetypes.map (fun a => a.ship_id)).Nodup →
      ((extract_hulls archetypes pm nm mi).map (fun r => r.hull_id)).Nodup := by
  intro archs pm nm mi h
  refine List.Nodup.sublist ?_ h
  exact map_filterMap_sublist _ _ _
    (fun a b hb => hullRowFor_hull_id _ _ _ _ _ hb) archs

/-- C1 witness: the amended per-archetype uniqueness at the two-archetype
scenario. -/
theorem C1_uniqueness_witness :
    ((extract_hulls [archMiner01, archMiner02] minerProdMap []
        minerMacroIds).map (fun r => r.hull_id)).Nodup :=
  C1_uniqueness_amended [archMiner01, archMiner02] minerProdMap []
    minerMacroIds (by decide)

/-- C2 counterexample: in the spec's end-to-end scenario both candidate
macros pass every gate, yet `extract_hulls` emits exactly one row — for
the first macro in insertion order — and that single row carries the
non-empty variant label "A", not the empty label the claim requires for a
lone match. -/
theorem C2_counterexample :
    ship_to_macro_match "ship_arg_m_miner_01" minerShipTokens "M"
      "ship_arg_m_miner_01_a_macro"
      (normalise_ship_tokens (macro_tokens "ship_arg_m_miner_01_a_macro")) = true ∧
    ship_to_macro_match "ship_arg_m_miner_01" minerShipTokens "M"
      "ship_arg_m_miner_01_b_macro"
      (normalise_ship_tokens (macro_tokens "ship_arg_m_miner_01_b_macro")) = true ∧
    (extract_hulls [archMiner01] minerProdMap [] minerMacroIds).length = 1 ∧
    (extract_hulls [archMiner01] minerProdMap [] minerMacroIds).map
      (fun r => (r.macro_id, r.variant)) = [("ship_arg_m_miner_01_a_macro", "A")] :=
  ⟨by decide, by decide, by decide, by decide⟩

/-- C2 amended: `extract_hulls` emits at most one row per archetype,
whatever the number of matching macros; in the miner scenario the single
emitted row references the first matching macro and carries the variant
label "A" derived from that macro id's letter segment. -/
theorem C2_first_match_amended :
    (∀ (archetypes : List ShipArchetype) (pm : List (String × Production))
        (nm : List (String × String)) (mi : List String),
      (extract_hulls archetypes pm nm mi).length ≤ archetypes.length) ∧
    (extract_hulls [archMiner01] minerProdMap [] minerMacroIds).map
      (fun r => (r.macro_id, r.variant)) = [("ship_arg_m_miner_01_a_macro", "A")] := by
  constructor
  · intro archs pm nm mi
    exact List.length_filterMap_le _ _
  · decide

/-- C6 counterexample: two identical token sets sharing one faction token
and one generic class token score 2 — the raw intersection size — while
the claim's formula (the intersection with generic tokens removed) gives
1. -/
theorem C6_counterexample :
    (score_macro_match {"arg", "fighter"} {"arg", "fighter"}).1 = 2 ∧
    ((({"arg", "fighter"} : Finset String) ∩ {"arg", "fighter"}) \
      GENERIC_CLASS_TOKENS).card = 1 ∧
    (score_macro_match {"arg", "fighter"} {"arg", "fighter"}).1 ≠
      ((({"arg", "fighter"} : Finset String) ∩ {"arg", "fighter"}) \
        GENERIC_CLASS_TOKENS).card :=
  ⟨by decide, by decide, by decide⟩

/-- C6 amended: the score is the size of the raw token intersection,
forced to zero when the intersection minus the generic-class vocabulary is
empty (or on a recognised-faction conflict); the generic tokens gate the
score but are not removed from it; acceptance in this variant requires
score at least `MIN_MATCH_SCORE = 3`. -/
theorem C6_score_amended :
    (∀ s m : Finset String,
      (s ∩ m) \ GENERIC_CLASS_TOKENS ≠ ∅ →
      ¬ ((s ∩ FACTION_TOKENS).Nonempty ∧ (m ∩ FACTION_TOKENS).Nonempty ∧
          (s ∩ FACTION_TOKENS) ∩ (m ∩ FACTION_TOKENS) = ∅) →
      (score_macro_match s m).1 = (s ∩ m).card) ∧
    (∀ s m : Finset String,
      (s ∩ m) \ GENERIC_CLASS_TOKENS = ∅ → (score_macro_match s m).1 = 0) ∧
    MIN_MATCH_SCORE = 3 ∧
    (∀ s m : Finset String,
      macroAccepted s m = true ↔ 3 ≤ (score_macro_match s m).1) := by
  refine ⟨?_, ?_, rfl, ?_⟩
  · intro s m h1 h2
    simp only [score_macro_match]
    rw [if_neg h2, if_neg h1]
  · intro s m h
    simp only [score_macro_match]
    by_cases hf : (s ∩ FACTION_TOKENS).Nonempty ∧ (m ∩ FACTION_TOKENS).Nonempty ∧
        (s ∩ FACTION_TOKENS) ∩ (m ∩ FACTION_TOKENS) = ∅
    · rw [if_pos hf]
    · rw [if_neg hf, if_pos h]
  · intro s m
    simp [macroAccepted, MIN_MATCH_SCORE]

/-- C6 witness: the raw-intersection score at a concrete pair with three
shared meaningful tokens. -/
theorem C6_score_witness :
    (score_macro_match {"arg", "m", "osprey"} {"arg", "m", "osprey"}).1 =
      (({"arg", "m", "osprey"} : Finset String) ∩ {"arg", "m", "osprey"}).card :=
  C6_score_amended.1 {"arg", "m", "osprey"} {"arg", "m", "osprey"}
    (by decide) (by decide)

/-- C7 counterexample: `tokenise_identifier` keeps the stopword "ship" and
the pure-digit segment "01" that the claim says are removed. -/
theorem C7_counterexample :
    tokenise_identifier "ship_arg_01" ≠ claimedTokeniserC7 "ship_arg_01" ∧
    "ship" ∈ tokenise_identifier "ship_arg_01" ∧
    "01" ∈ tokenise_identifier "ship_arg_01" :=
  ⟨by decide, by decide, by decide⟩

/-- C7 amended: `tokenise_identifier` returns exactly the set of the
identifier's lowercased underscore segments with empty segments dropped —
digit segments and the words "ship"/"macro" are retained (their removal
happens in `macro_tokens` and in the matcher's core gate); no input is
invalid, and tokenising twice yields the identical set. -/
theorem C7_tokeniser_amended :
    (∀ value t : String,
      t ∈ tokenise_identifier value ↔
        (t ∈ pySplit (strLower value) '_' ∧ t ≠ "")) ∧
    (∀ value : String, tokenise_identifier value = tokenise_identifier value) ∧
    "ship" ∈ tokenise_identifier "ship_arg_01" ∧
    "01" ∈ tokenise_identifier "ship_arg_01" := by
  refine ⟨?_, fun _ => rfl, by decide, by decide⟩
  intro value t
  simp [tokenise_identifier, List.mem_filter]

theorem dictGet?_map_ne {α : Type} (k : String) (v : α) (q : String)
    (hq : q ≠ k) (d : List (String × α)) :
    dictGet? (d.map (fun p => if p.1 == k then (k, v) else p)) q =
      dictGet? d q := by
  induction d with
  | nil => rfl
  | cons a d ih =>
    by_cases ha : a.1 = k
    · have haq : (a.1 == q) = false := beq_eq_false_iff_ne.mpr (fun h => hq (ha ▸ h).symm)
      have hkq : (k == q) = false := beq_eq_false_iff_ne.mpr (fun h => hq h.symm)
      have hhead : (fun p => if p.1 == k then (k, v) else p) a = (k, v) := by
        simp [ha]
      simp only [List.map_cons, hhead, dictGet?, hkq, haq, Bool.false_eq_true,
        if_false]
      exact ih
    · have ha' : (a.1 == k) = false := beq_eq_false_iff_ne.mpr ha
      have hhead : (fun p => if p.1 == k then (k, v) else p) a = a := by
        simp [ha']
      simp only [List.map_cons, hhead, dictGet?]
      split
      · rfl
      · exact ih

theorem dictGet?_map_hit {α : Type} (k : String) (v : α)
    (d : List (String × α)) (hk : d.any (fun p => p.1 == k) = true) :
    dictGet? (d.map (fun p => if p.1 == k then (k, v) else p)) k = some v := by
  induction d with
  | nil => simp at hk
  | cons a d ih =>
    by_cases ha : a.1 = k
    · simp [dictGet?, ha]
    · have ha' : (a.1 == k) = false := beq_eq_false_iff_ne.mpr ha
      simp only [List.any_cons, Bool.or_eq_true, beq_iff_eq] at hk
      rcases hk with hk | hk
      · exact absurd hk ha
      · have hhead : (fun p => if p.1 == k then (k, v) else p) a = a := by
          simp [ha']
        simp only [List.map_cons, hhead, dictGet?, ha', Bool.false_eq_true,
          if_false]
        exact ih hk

theorem dictGet?_append_single {α : Type} (k : String) (v : α) (q : String)
    (d : List (String × α)) (hmiss : ∀ p ∈ d, p.1 ≠ k) :
    dictGet? (d ++ [(k, v)]) q = if q = k then some v else dictGet? d q := by
  induction d with
  | nil =>
    simp only [List.nil_append, dictGet?]
    by_cases hq : q = k
    · rw [if_pos (beq_iff_eq.mpr hq.symm), if_pos hq]
    · rw [if_neg (by simpa using fun h => hq h.symm), if_neg hq]
  | cons a d ih =>
    have ha : a.1 ≠ k := hmiss a (List.mem_cons_self a d)
    by_cases haq : a.1 = q
    · have h1 : (a.1 == q) = true := beq_iff_eq.mpr haq
      have hq : q ≠ k := fun hqk => ha (haq.trans hqk)
      simp [List.cons_append, dictGet?, h1, hq]
    · have h0 : (a.1 == q) = false := beq_eq_false_iff_ne.mpr haq
      simp only [List.cons_append, dictGet?, h0, Bool.false_eq_true, if_false]
      exact ih (fun p hp => hmiss p (List.mem_cons_of_mem a hp))


theorem dictGet?_dictSet {α : Type} (d : List (String × α)) (k : String)
    (v : α) (q : String) :
    dictGet? (dictSet d k v) q = if q = k then some v else dictGet? d q := by
  rw [dictSet]
  split
  case isTrue hk =>
    by_cases hq : q = k
    · rw [if_pos hq, hq]
      exact dictGet?_map_hit k v d hk
    · rw [if_neg hq]
      exact dictGet?_map_ne k v q hq d
  case isFalse hk =>
    refine dictGet?_append_single k v q d ?_
    intro p hp hpk
    exact hk (List.any_eq_true.mpr ⟨p, hp, beq_iff_eq.mpr hpk⟩)

theorem keys_dictSet {α : Type} (d : List (String × α)) (k : String) (v : α) :
    (dictSet d k v).map Prod.fst =
      if d.any (fun p => p.1 == k) then d.map Prod.fst
      else d.map Prod.fst ++ [k] := by
  rw [dictSet]
  split
  case isTrue hk =>
    rw [List.map_map]
    apply List.map_congr_left
    intro p hp
    by_cases hpk : p.1 = k
    · simp [Function.comp, hpk]
    · simp [Function.comp, beq_eq_false_iff_ne.mpr hpk]
  case isFalse hk => simp

theorem keys_nodup_dictSet {α : Type} (d : List (String × α)) (k : String)
    (v : α) (h : (d.map Prod.fst).Nodup) :
    ((dictSet d k v).map Prod.fst).Nodup := by
  rw [keys_dictSet]
  split
  case isTrue => exact h
  case isFalse hk =>
    rw [List.nodup_append]
    refine ⟨h, List.nodup_singleton k, ?_⟩
    intro x hx hx'
    rw [List.mem_singleton] at hx'
    subst hx'
    rcases List.mem_map.mp hx with ⟨p, hp, hpk⟩
    exact hk (List.any_eq_true.mpr ⟨p, hp, beq_iff_eq.mpr hpk⟩)

theorem componentsToMap_get_aux (comps : List (String × Int)) :
    ∀ (acc : List (String × Int)) (name : String),
      (dictGet? (comps.foldl (fun result p =>
          dictSet result p.1 ((dictGet? result p.1).getD 0 + p.2)) acc) name).getD 0 =
        (dictGet? acc name).getD 0 +
          ((comps.filter (fun p => p.1 == name)).map (fun p => p.2)).sum := by
  induction comps with
  | nil => intro acc name; simp
  | cons c tl ih =>
    intro acc name
    rw [List.foldl_cons, ih, dictGet?_dictSet]
    by_cases hn : name = c.1
    · rw [if_pos hn, List.filter_cons, if_pos (by simp [hn]), List.map_cons,
        List.sum_cons, hn]
      simp only [Option.getD_some]
      omega
    · rw [if_neg hn, List.filter_cons,
        if_neg (by simp; exact fun h => hn h.symm)]

theorem componentsToMap_nodup_aux (comps : List (String × Int)) :
    ∀ acc : List (String × Int), ((acc.map Prod.fst).Nodup) →
      (((comps.foldl (fun result p =>
          dictSet result p.1 ((dictGet? result p.1).getD 0 + p.2)) acc)).map
        Prod.fst).Nodup := by
  induction comps with
  | nil => intro acc h; simpa using h
  | cons c tl ih =>
    intro acc h
    rw [List.foldl_cons]
    exact ih _ (keys_nodup_dictSet _ _ _ h)

theorem C8_components_merge :
    (∀ (comps : List (String × Int)) (name : String),
      (dictGet? (components_to_map comps) name).getD 0 =
        ((comps.filter (fun p => p.1 == name)).map (fun p => p.2)).sum) ∧
    (∀ comps : List (String × Int),
      ((components_to_map comps).map Prod.fst).Nodup) ∧
    components_to_map [("m", 5), ("m", 3)] = [("m", 8)] := by
  refine ⟨?_, ?_, by decide⟩
  · intro comps name
    have h := componentsToMap_get_aux comps [] name
    simpa [components_to_map, dictGet?] using h
  · intro comps
    exact componentsToMap_nodup_aux comps [] (by simp)

/-- Data of a constructed string is the constructing list. -/
theorem stringData_mk (l : List Char) : (String.mk l).data = l := rfl

/-- Resolution branch 1 of `resolve_display_name`: a parsed reference with
a table entry resolves to the entry. -/
theorem resolve_table_hit (raw : Option String)
    (tt : List ((Int × Int) × String)) (fb : String) (ref : Int × Int)
    (s : String) (h1 : parse_text_ref raw = some ref)
    (h2 : ttLookup tt ref = some s) : resolve_display_name raw tt fb = s := by
  simp [resolve_display_name, h1, h2]

/-- Resolution branch 2: a non-empty input that does not start (after
stripping) with an opening brace is cleaned and returned. -/
theorem resolve_literal_clean (r : String)
    (tt : List ((Int × Int) × String)) (fb : String) (h1 : r ≠ "")
    (h2 : strStartsWith (pyStrip r) "\x7b" = false) :
    resolve_display_name (some r) tt fb = clean_x4_display_name r := by
  have hp : parse_text_ref (some r) = none := by
    simp only [parse_text_ref]
    rw [if_neg (by simpa using h1)]
    rw [if_neg (by simp [h2])]
  simp [resolve_display_name, hp, h1, h2]

/-- Resolution branch 3a: a missing input degrades to the fallback. -/
theorem resolve_none_fb (tt : List ((Int × Int) × String)) (fb : String) :
    resolve_display_name none tt fb = fb := rfl

/-- Resolution branch 3b: a reference-shaped input whose parse either
fails or finds no table entry degrades to the fallback. -/
theorem resolve_tablemiss_fb (r : String)
    (tt : List ((Int × Int) × String)) (fb : String)
    (hb : strStartsWith (pyStrip r) "\x7b" = true)
    (hmiss : ∀ ref, parse_text_ref (some r) = some ref → ttLookup tt ref = none) :
    resolve_display_name (some r) tt fb = fb := by
  cases hp : parse_text_ref (some r) with
  | none =>
    by_cases hr : r = ""
    · subst hr; rfl
    · simp [resolve_display_name, hp, hr, hb]
  | some ref =>
    have hl := hmiss ref hp
    by_cases hr : r = ""
    · subst hr; rfl
    · simp [resolve_display_name, hp, hl, hr, hb]

/-- C9: display-name resolution is total and follows the fixed order —
table hit on a parsed reference first, then a cleaned non-reference
literal, then the caller's fallback — and the three concrete examples
resolve as the spec states. -/
theorem C9_resolution_order :
    (∀ (raw : Option String) (tt : List ((Int × Int) × String)) (fb : String)
        (ref : Int × Int) (s : String),
      parse_text_ref raw = some ref → ttLookup tt ref = some s →
        resolve_display_name raw tt fb = s) ∧
    (∀ (r : String) (tt : List ((Int × Int) × String)) (fb : String),
      r ≠ "" → strStartsWith (pyStrip r) "\x7b" = false →
        resolve_display_name (some r) tt fb = clean_x4_display_name r) ∧
    (∀ (tt : List ((Int × Int) × String)) (fb : String),
      resolve_display_name none tt fb = fb) ∧
    (∀ (r : String) (tt : List ((Int × Int) × String)) (fb : String),
      strStartsWith (pyStrip r) "\x7b" = true →
      (∀ ref, parse_text_ref (some r) = some ref → ttLookup tt ref = none) →
        resolve_display_name (some r) tt fb = fb) ∧
    resolve_display_name (some "\x7b20111,5011\x7d")
      [((20111, 5011), "Plasma Cannon")] "x" = "Plasma Cannon" ∧
    resolve_display_name (some "\x7b1,2\x7d") [] "x" = "x" ∧
    resolve_display_name (some "Tethys \\(Mineral\\)\x7b1,2\x7d") [] "x" =
      "Tethys (Mineral)" :=
  ⟨resolve_table_hit, resolve_literal_clean, resolve_none_fb,
    resolve_tablemiss_fb, by decide, by decide, by decide⟩

/-- C9 witness: the table-hit branch applied at the concrete Plasma Cannon
reference. -/
theorem C9_resolution_witness :
    resolve_display_name (some "\x7b20111,5011\x7d")
      [((20111, 5011), "Plasma Cannon")] "x" = "Plasma Cannon" :=
  C9_resolution_order.1 (some "\x7b20111,5011\x7d")
    [((20111, 5011), "Plasma Cannon")] "x" (20111, 5011) "Plasma Cannon"
    (by decide) (by decide)

/-- `takeWhile` passes over a block that satisfies the predicate. -/
theorem takeWhile_append_all {α : Type} {p : α → Bool} (xs ys : List α)
    (h : ∀ x ∈ xs, p x = true) :
    (xs ++ ys).takeWhile p = xs ++ ys.takeWhile p := by
  induction xs with
  | nil => simp
  | cons a xs ih =>
    have ha : p a = true := h a (List.mem_cons_self a xs)
    simp only [List.cons_append, List.takeWhile_cons, ha, if_true]
    rw [ih (fun x hx => h x (List.mem_cons_of_mem a hx))]

/-- `dropWhile` passes over a block that satisfies the predicate. -/
theorem dropWhile_append_all {α : Type} {p : α → Bool} (xs ys : List α)
    (h : ∀ x ∈ xs, p x = true) :
    (xs ++ ys).dropWhile p = ys.dropWhile p := by
  induction xs with
  | nil => simp
  | cons a xs ih =>
    have ha : p a = true := h a (List.mem_cons_self a xs)
    simp only [List.cons_append, List.dropWhile_cons, ha, if_true]
    exact ih (fun x hx => h x (List.mem_cons_of_mem a hx))

/-- The variant pattern fires exactly on ids of the form
`<p>_<dd>_mk<digits>` and drops the two-digit segment. -/
theorem variantStrip_shape (p : List Char) (d1 d2 : Char) (ds : List Char)
    (h1 : d1.isDigit = true) (h2 : d2.isDigit = true) (hne : ds ≠ [])
    (hds : ∀ c ∈ ds, c.isDigit = true) :
    variantStrip (String.mk (p ++ '_' :: d1 :: d2 :: '_' :: 'm' :: 'k' :: ds)) =
      some (String.mk (p ++ '_' :: 'm' :: 'k' :: ds)) := by
  have hrev : (p ++ '_' :: d1 :: d2 :: '_' :: 'm' :: 'k' :: ds).reverse =
      ds.reverse ++ 'k' :: 'm' :: '_' :: d2 :: d1 :: '_' :: p.reverse := by
    simp [List.reverse_append, List.reverse_cons, List.append_assoc]
  have hall : ∀ c ∈ ds.reverse, c.isDigit = true := by
    intro c hc
    exact hds c (List.mem_reverse.mp hc)
  have htake : (ds.reverse ++ 'k' :: 'm' :: '_' :: d2 :: d1 :: '_' :: p.reverse).takeWhile
      Char.isDigit = ds.reverse := by
    rw [takeWhile_append_all _ _ hall]
    simp [List.takeWhile_cons]
  have hdrop : (ds.reverse ++ 'k' :: 'm' :: '_' :: d2 :: d1 :: '_' :: p.reverse).dropWhile
      Char.isDigit = 'k' :: 'm' :: '_' :: d2 :: d1 :: '_' :: p.reverse := by
    rw [dropWhile_append_all _ _ hall]
    simp [List.dropWhile_cons]
  have hne' : ds.reverse ≠ [] := by
    intro h
    exact hne (by simpa using congrArg List.reverse h)
  rw [variantStrip]
  simp only [stringData_mk, hrev, htake, hdrop]
  cases hd : ds.reverse with
  | nil => exact absurd hd hne'
  | cons e es =>
    rw [if_pos (by simp [h1, h2])]
    rw [← hd]
    simp [List.reverse_reverse]

/-- One canonicalisation step on a well-formed variant id removes exactly
the two-digit segment before the mark suffix. -/
theorem canonical_variant_shape (p : List Char) (d1 d2 : Char)
    (ds : List Char) (h1 : d1.isDigit = true) (h2 : d2.isDigit = true)
    (hne : ds ≠ []) (hds : ∀ c ∈ ds, c.isDigit = true) :
    canonical_equipment_id
        (String.mk (p ++ '_' :: d1 :: d2 :: '_' :: 'm' :: 'k' :: ds)) =
      String.mk (p ++ '_' :: 'm' :: 'k' :: ds) := by
  rw [canonical_equipment_id, variantStrip_shape p d1 d2 ds h1 h2 hne hds]
  rfl

/-- C10 counterexample: an id carrying two numeric segments before the
mark suffix is stripped once per application, so canonicalising twice
differs from canonicalising once. -/
theorem C10_counterexample :
    canonical_equipment_id
        (canonical_equipment_id "turret_par_m_shotgun_02_01_mk1") ≠
      canonical_equipment_id "turret_par_m_shotgun_02_01_mk1" := by decide

/-- C10 amended: canonicalisation removes one trailing two-digit variant
segment per application — it is idempotent at every id whose canonical
form no longer matches the variant pattern (every id with a single
cosmetic segment), any two ids differing only in that segment canonicalise
to the same value, and the two example turret ids both canonicalise to
turret_par_m_shotgun_mk1. -/
theorem C10_canonical_amended :
    (∀ ware_id : String, variantStrip (canonical_equipment_id ware_id) = none →
      canonical_equipment_id (canonical_equipment_id ware_id) =
        canonical_equipment_id ware_id) ∧
    (∀ (p : List Char) (d1 d2 : Char) (ds : List Char),
      d1.isDigit = true → d2.isDigit = true → ds ≠ [] →
      (∀ c ∈ ds, c.isDigit = true) →
      canonical_equipment_id
          (String.mk (p ++ '_' :: d1 :: d2 :: '_' :: 'm' :: 'k' :: ds)) =
        String.mk (p ++ '_' :: 'm' :: 'k' :: ds)) ∧
    canonical_equipment_id "turret_par_m_shotgun_01_mk1" =
      "turret_par_m_shotgun_mk1" ∧
    canonical_equipment_id "turret_par_m_shotgun_02_mk1" =
      "turret_par_m_shotgun_mk1" := by
  refine ⟨?_, canonical_variant_shape, by decide, by decide⟩
  intro ware_id h
  rw [canonical_equipment_id, h]
  rfl

/-- C10 witness: the single-step strip at a concrete shotgun turret id. -/
theorem C10_canonical_witness :
    canonical_equipment_id
        (String.mk ("turret_par_m_shotgun".data ++
          '_' :: '0' :: '1' :: '_' :: 'm' :: 'k' :: ['1'])) =
      String.mk ("turret_par_m_shotgun".data ++ '_' :: 'm' :: 'k' :: ['1']) :=
  C10_canonical_amended.2.1 "turret_par_m_shotgun".data '0' '1' ['1']
    (by decide) (by decide) (by decide) (by decide)

end X4SQ
